import Mathlib

/-!
Shallow embedding of the account-rotation engine of the
pi-antigravity-multiaccount extension (account-rotation.ts, v1.3.0):
quota ledger, health scorer, selection strategies, backoff policy,
rotation state machine and branch-state reconstruction.

Modelling conventions:
* JS numbers are modelled as exact rationals (`ℚ`); list indices as `ℕ`.
* `Record<string, T>` is modelled as `String → Option T`.
* JS truthiness of an optional numeric field (`x && …`) means: the field
  is present and its value is nonzero.
* `Date.now()` is impure; it is passed explicitly as a parameter `now`.
* The reference-equality memoisation cache of `getEnabledAccounts` is
  semantically the identity and is modelled away.
-/

namespace Rotation

/-- Selection strategy (source: `type SelectionStrategy = "sticky" | "round-robin" | "hybrid"`). -/
inductive SelectionStrategy where
| sticky
| roundRobin
| hybrid
deriving DecidableEq, Repr

/-- Source `interface RotationConfig`. -/
structure RotationConfig where
  account_selection_strategy : SelectionStrategy
  pid_offset_enabled : Bool
  max_rate_limit_wait_seconds : ℚ
  failure_ttl_seconds : ℚ
  rate_limit_wait_enabled : Bool
  rate_limit_initial_wait_seconds : ℚ
  soft_quota_threshold_percent : ℚ
  debug : Bool
  quiet_mode : Bool
deriving DecidableEq, Repr

/-- Source `interface AccountCredentials extends OAuthCredentials`. -/
structure AccountCredentials where
  id : String
  label : Option String
  addedAt : ℚ
  enabled : Bool
  refresh : String
  access : String
  expires : ℚ
deriving DecidableEq, Repr

/-- Source `interface AccountQuotaState`. -/
structure AccountQuotaState where
  lastRateLimitAt : Option ℚ
  rateLimitUntil : Option ℚ
  requestCount : ℚ
  failureCount : ℚ
  lastSuccessAt : Option ℚ
deriving DecidableEq, Repr

/-- Source `quotaState: Record<string, AccountQuotaState>`. -/
def QuotaMap : Type := String → Option AccountQuotaState

/-- Source `interface AccountRotationState`. -/
structure AccountRotationState where
  accounts : List AccountCredentials
  currentIndex : ℕ
  rotationCount : ℕ
  quotaState : QuotaMap

/-- Source constant `MAX_ROTATION_DEPTH = 5`. -/
def MAX_ROTATION_DEPTH : ℕ := 5

/-- Source constant `DEFAULT_CONFIG`. -/
def DEFAULT_CONFIG : RotationConfig :=
  { account_selection_strategy := .hybrid
    pid_offset_enabled := false
    max_rate_limit_wait_seconds := 60
    failure_ttl_seconds := 3600
    rate_limit_wait_enabled := true
    rate_limit_initial_wait_seconds := 5
    soft_quota_threshold_percent := 90
    debug := false
    quiet_mode := false }

/-- Source `calculateWaitTime(failureCount, config)`; `failureCount` is
always a non-negative integer in the program, so it is taken as `ℕ`. -/
def calculateWaitTime (failureCount : ℕ) (config : RotationConfig) : ℚ :=
  let baseWait := config.rate_limit_initial_wait_seconds
  let waitTime := baseWait * 2 ^ min failureCount 4
  min waitTime config.max_rate_limit_wait_seconds

/-- Update of a single record inside `cleanupExpiredFailures`: the body of
the source loop `if (quota.failureCount > 0 && quota.lastRateLimitAt) if
(now - quota.lastRateLimitAt > ttlMs) { failureCount = 0; rateLimitUntil =
undefined }`.  `quota.lastRateLimitAt` truthy means present and nonzero. -/
def cleanupQuotaRecord (config : RotationConfig) (now : ℚ) (q : AccountQuotaState) : AccountQuotaState :=
  if 0 < q.failureCount then
    match q.lastRateLimitAt with
    | some t =>
      if t ≠ 0 ∧ config.failure_ttl_seconds * 1000 < now - t then
        { q with failureCount := 0, rateLimitUntil := none }
      else q
    | none => q
  else q

/-- Source `cleanupExpiredFailures(quotaState, config)`: every key of the
map is visited and its record updated in place; no key is added or
removed. -/
def cleanupExpiredFailures (quotaState : QuotaMap) (config : RotationConfig) (now : ℚ) : QuotaMap :=
  fun accountId => (quotaState accountId).map (cleanupQuotaRecord config now)

/-- JS truthiness test `quota.rateLimitUntil && now < quota.rateLimitUntil`
for an optional numeric timestamp (also used with `lastSuccessAt`). -/
def activeWindow (limit : Option ℚ) (now : ℚ) : Bool :=
  match limit with
  | some u => decide (u ≠ 0) && decide (now < u)
  | none => false

/-- Source `hasReachedSoftQuota(account, quotaState, config)`. -/
def hasReachedSoftQuota (account : AccountCredentials) (quotaState : QuotaMap)
    (config : RotationConfig) (now : ℚ) : Bool :=
  match quotaState account.id with
  | none => false
  | some quota =>
    if activeWindow quota.rateLimitUntil now then true
    else if 10 ≤ quota.requestCount then
      decide (config.soft_quota_threshold_percent ≤ quota.failureCount / quota.requestCount * 100)
    else false

/-- Source `calculateHealthScore(account, quotaState, config)`. -/
def calculateHealthScore (account : AccountCredentials) (quotaState : QuotaMap)
    (config : RotationConfig) (now : ℚ) : ℚ :=
  match quotaState account.id with
  | none => 100
  | some quota =>
    let score0 : ℚ := 100
    let score1 := if activeWindow quota.rateLimitUntil now then score0 - 80 else score0
    let score2 :=
      match quota.lastRateLimitAt with
      | some t =>
        if t ≠ 0 ∧ now - t < 3600000 then
          let minutesAgo := (now - t) / 60000
          score1 - max 0 (30 - minutesAgo * (1 / 2))
        else score1
      | none => score1
    let score3 :=
      if 0 < quota.failureCount then
        let lastFailure := quota.lastRateLimitAt.getD 0
        if now - lastFailure < config.failure_ttl_seconds * 1000 then
          score2 - min 50 (quota.failureCount * 10)
        else score2
      else score2
    let score4 :=
      match quota.lastSuccessAt with
      | some s => if s ≠ 0 ∧ now - s < 60000 then score3 + 10 else score3
      | none => score3
    max 0 (min 100 score4)

/-- Empty base record used by `recordRateLimit`/`recordSuccess` when the
account has no quota record yet: `{ requestCount: 0, failureCount: 0 }`. -/
def emptyQuotaRecord : AccountQuotaState :=
  { lastRateLimitAt := none, rateLimitUntil := none, requestCount := 0
    failureCount := 0, lastSuccessAt := none }

/-- Source closure `recordRateLimit(accountId)`; `state.quotaState` and
`config` are passed explicitly. -/
def recordRateLimit (quotaState : QuotaMap) (accountId : String) (now : ℚ)
    (config : RotationConfig) : QuotaMap :=
  let existing := (quotaState accountId).getD emptyQuotaRecord
  fun i =>
    if i = accountId then
      some { existing with
              lastRateLimitAt := some now
              rateLimitUntil := some (now + config.max_rate_limit_wait_seconds * 1000)
              failureCount := existing.failureCount + 1 }
    else quotaState i

/-- Source closure `recordSuccess(accountId)`. -/
def recordSuccess (quotaState : QuotaMap) (accountId : String) (now : ℚ) : QuotaMap :=
  let existing := (quotaState accountId).getD emptyQuotaRecord
  fun i =>
    if i = accountId then
      some { existing with
              lastSuccessAt := some now
              requestCount := existing.requestCount + 1 }
    else quotaState i

/-- Source `getEnabledAccounts(accounts)` (its reference-equality cache is
semantically the identity). -/
def getEnabledAccounts (accounts : List AccountCredentials) : List AccountCredentials :=
  accounts.filter (fun a => a.enabled)

/-- JS `accounts[i]?.enabled` (false when `i` is out of range). -/
def idxEnabled (accounts : List AccountCredentials) (i : ℕ) : Bool :=
  match accounts[i]? with
  | some a => a.enabled
  | none => false

/-- The forward circular scan `for (let i = 1; i <= accounts.length; i++)
{ nextIdx = (currentIndex + i) % accounts.length; if (enabled) return }`,
used verbatim by the sticky branch, the round-robin branch and the
force-advance loop of `rotateAccount`; falls back to `currentIndex` when
no enabled account is found. -/
def forwardScan (accounts : List AccountCredentials) (currentIndex : ℕ) : ℕ :=
  match (List.range accounts.length).findSome? (fun j =>
      let nextIdx := (currentIndex + j + 1) % accounts.length
      if idxEnabled accounts nextIdx then some nextIdx else none) with
  | some idx => idx
  | none => currentIndex

/-- Body of the hybrid-strategy loop of `selectNextAccount`: skip disabled
accounts and accounts at the soft-quota threshold, subtract 20 from the
current position's score under `forceRotate`, and keep the running best
under strict `>` comparison. -/
def hybridStep (accounts : List AccountCredentials) (currentIndex : ℕ) (quotaState : QuotaMap)
    (config : RotationConfig) (forceRotate : Bool) (now : ℚ) (best : ℕ × ℚ) (i : ℕ) : ℕ × ℚ :=
  match accounts[i]? with
  | none => best
  | some acc =>
    if acc.enabled then
      if hasReachedSoftQuota acc quotaState config now then best
      else
        let score := calculateHealthScore acc quotaState config now
        let adjustedScore := if i = currentIndex ∧ forceRotate = true then score - 20 else score
        if best.2 < adjustedScore then (i, adjustedScore) else best
    else best

/-- Source `selectNextAccount(accounts, currentIndex, quotaState, config,
forceRotate)`. -/
def selectNextAccount (accounts : List AccountCredentials) (currentIndex : ℕ)
    (quotaState : QuotaMap) (config : RotationConfig) (forceRotate : Bool) (now : ℚ) : ℕ :=
  match getEnabledAccounts accounts with
  | [] => currentIndex
  | [only] => accounts.findIdx (fun a => a.id == only.id)
  | _ :: _ :: _ =>
    match config.account_selection_strategy with
    | .sticky =>
      if forceRotate = false ∧ idxEnabled accounts currentIndex = true then currentIndex
      else forwardScan accounts currentIndex
    | .roundRobin => forwardScan accounts currentIndex
    | .hybrid =>
      ((List.range accounts.length).foldl
        (hybridStep accounts currentIndex quotaState config forceRotate now)
        (currentIndex, -1)).1

/-- Soft-quota condition exactly as the specification words it: true iff
`now < rateLimitUntil`, or `requestCount ≥ 10` and
`failureCount/requestCount*100 ≥ softQuotaThresholdPercent`; false with no
quota record.  Claim-side definition, compared against the source-derived
`hasReachedSoftQuota`. -/
def softQuotaClaim (account : AccountCredentials) (quotaState : QuotaMap)
    (config : RotationConfig) (now : ℚ) : Bool :=
  match quotaState account.id with
  | none => false
  | some q =>
    (match q.rateLimitUntil with
     | some u => decide (now < u)
     | none => false) ||
    (decide (10 ≤ q.requestCount) &&
     decide (config.soft_quota_threshold_percent ≤ q.failureCount / q.requestCount * 100))

/-! Concrete fixtures used by the witnesses, counterexamples and
scenario claims. -/

/-- Enabled account with id "a". -/
def accA : AccountCredentials :=
  { id := "a", label := none, addedAt := 0, enabled := true
    refresh := "ra", access := "ta", expires := 0 }

/-- Enabled account with id "b". -/
def accB : AccountCredentials := { accA with id := "b", refresh := "rb", access := "tb" }

/-- Enabled account with id "c". -/
def accC : AccountCredentials := { accA with id := "c", refresh := "rc", access := "tc" }

/-- Account "a", disabled. -/
def accADisabled : AccountCredentials := { accA with enabled := false }

/-- Empty quota map. -/
def emptyQuota : QuotaMap := fun _ => none

/-- Quota record whose only penalty is a rate limit 30 s before `now`
(at 3600000); the decayed penalty is 29.75 points, so the score is
fractional. -/
def quotaHalfMinute : QuotaMap := fun i =>
  if i = "a" then
    some { lastRateLimitAt := some 3570000, rateLimitUntil := none
           requestCount := 0, failureCount := 0, lastSuccessAt := none }
  else none

/-- C4: for every credential, quota state, configuration and time,
calculateHealthScore is clamped to [0,100], and a credential with no
quota record scores exactly 100.  (Amended: the score need not be an
integer; see the counterexample.) -/
theorem healthScore_claim (account : AccountCredentials) (quotaState : QuotaMap)
    (config : RotationConfig) (now : ℚ) :
    (0 ≤ calculateHealthScore account quotaState config now ∧
      calculateHealthScore account quotaState config now ≤ 100) ∧
    (quotaState account.id = none → calculateHealthScore account quotaState config now = 100) := by
  unfold calculateHealthScore
  cases hq : quotaState account.id with
  | none => norm_num
  | some q =>
    refine ⟨⟨le_max_left 0 _, max_le (by norm_num) (min_le_left _ _)⟩, ?_⟩
    intro h
    exact Option.noConfusion h

/-- Witness for C4 at a concrete input with no quota record. -/
theorem healthScore_claim_witness :
    calculateHealthScore accA emptyQuota DEFAULT_CONFIG 0 = 100 :=
  (healthScore_claim accA emptyQuota DEFAULT_CONFIG 0).2 rfl

/-- C4 counterexample: 30 s after a rate limit the decaying penalty is
30 − 0.5·0.5 = 29.75, so the score is 281/4, which is not an integer —
refuting the claim that calculateHealthScore always returns an integer. -/
theorem healthScore_integer_cex :
    calculateHealthScore accA quotaHalfMinute DEFAULT_CONFIG 3600000 = 281 / 4 ∧
    ¬ ∃ n : ℤ, calculateHealthScore accA quotaHalfMinute DEFAULT_CONFIG 3600000 = (n : ℚ) := by
  have hval : calculateHealthScore accA quotaHalfMinute DEFAULT_CONFIG 3600000 = 281 / 4 := by
    norm_num [calculateHealthScore, quotaHalfMinute, accA, activeWindow, DEFAULT_CONFIG,
      min_def, max_def]
  refine ⟨hval, ?_⟩
  rintro ⟨n, hn⟩
  rw [hval] at hn
  field_simp at hn
  have h2 : (281 : ℤ) = n * 4 := by exact_mod_cast hn
  omega

/-- Quota record with 10 requests and 9 failures (soft-quota scenario). -/
def quotaTenNine : QuotaMap := fun i =>
  if i = "a" then
    some { lastRateLimitAt := none, rateLimitUntil := none
           requestCount := 10, failureCount := 9, lastSuccessAt := none }
  else none

/-- C5: for timestamps `0 ≤ now` (Date.now() is non-negative),
hasReachedSoftQuota agrees exactly with the condition stated by the
specification (softQuotaClaim); in particular it is false with no quota
record and false when requestCount < 10 with no active rate-limit
window. -/
theorem softQuota_claim_correct (account : AccountCredentials) (quotaState : QuotaMap)
    (config : RotationConfig) (now : ℚ) (hnow : 0 ≤ now) :
    hasReachedSoftQuota account quotaState config now = softQuotaClaim account quotaState config now ∧
    (quotaState account.id = none → hasReachedSoftQuota account quotaState config now = false) ∧
    (∀ q, quotaState account.id = some q → q.requestCount < 10 →
      (∀ u, q.rateLimitUntil = some u → ¬ now < u) →
      hasReachedSoftQuota account quotaState config now = false) := by
  unfold hasReachedSoftQuota softQuotaClaim activeWindow
  cases hq : quotaState account.id with
  | none => exact ⟨rfl, fun _ => rfl, fun q h => Option.noConfusion h⟩
  | some q =>
    refine ⟨?_, fun h => Option.noConfusion h, ?_⟩
    · cases hu : q.rateLimitUntil with
      | none =>
        by_cases hrc : 10 ≤ q.requestCount <;> simp [hu, hrc]
      | some u =>
        by_cases h0 : u = 0
        · subst h0
          have hn0 : ¬ now < 0 := not_lt.mpr hnow
          by_cases hrc : 10 ≤ q.requestCount <;> simp [hu, hrc, hn0]
        · by_cases hlt : now < u <;> by_cases hrc : 10 ≤ q.requestCount <;>
            simp [hu, h0, hlt, hrc]
    · intro q' hq' hrc hwin
      obtain rfl : q = q' := Option.some.inj hq'
      cases hu : q.rateLimitUntil with
      | none => simp [hu, not_le.mpr hrc]
      | some u =>
        have hnu : ¬ now < u := hwin u hu
        simp [hu, hnu, not_le.mpr hrc]

/-- Witness for C5 at the specification's scenario (requestCount 10,
failureCount 9, threshold 90 %). -/
theorem softQuota_claim_witness :
    hasReachedSoftQuota accA quotaTenNine DEFAULT_CONFIG 1000 =
      softQuotaClaim accA quotaTenNine DEFAULT_CONFIG 1000 :=
  (softQuota_claim_correct accA quotaTenNine DEFAULT_CONFIG 1000 (by norm_num)).1

/-- C6 (amended): calculateWaitTime equals the capped exponential-backoff
formula for every configuration, never exceeds maxWaitSeconds, is
non-decreasing in failureCount whenever the configured initial wait is
non-negative, and takes the values 5,10,20,40,60 under the default
configuration (initial 5, max 60). -/
theorem waitTime_claim :
    (∀ (failureCount : ℕ) (config : RotationConfig),
      calculateWaitTime failureCount config =
        min (config.rate_limit_initial_wait_seconds * 2 ^ min failureCount 4)
          config.max_rate_limit_wait_seconds ∧
      calculateWaitTime failureCount config ≤ config.max_rate_limit_wait_seconds) ∧
    (∀ config : RotationConfig, 0 ≤ config.rate_limit_initial_wait_seconds →
      ∀ m n : ℕ, m ≤ n → calculateWaitTime m config ≤ calculateWaitTime n config) ∧
    (calculateWaitTime 0 DEFAULT_CONFIG = 5 ∧ calculateWaitTime 1 DEFAULT_CONFIG = 10 ∧
      calculateWaitTime 2 DEFAULT_CONFIG = 20 ∧ calculateWaitTime 3 DEFAULT_CONFIG = 40 ∧
      calculateWaitTime 4 DEFAULT_CONFIG = 60) := by
  refine ⟨fun failureCount config => ⟨rfl, min_le_right _ _⟩, ?_, ?_⟩
  · intro config h0 m n hmn
    unfold calculateWaitTime
    refine min_le_min ?_ le_rfl
    exact mul_le_mul_of_nonneg_left
      (pow_le_pow_right₀ (by norm_num) (min_le_min hmn le_rfl)) h0
  · refine ⟨?_, ?_, ?_, ?_, ?_⟩ <;> norm_num [calculateWaitTime, DEFAULT_CONFIG, min_def]

/-- Witness for C6, applying the monotonicity part at a concrete input. -/
theorem waitTime_claim_witness :
    calculateWaitTime 2 DEFAULT_CONFIG ≤ calculateWaitTime 3 DEFAULT_CONFIG :=
  waitTime_claim.2.1 DEFAULT_CONFIG (by norm_num [DEFAULT_CONFIG]) 2 3 (by norm_num)

/-- Configuration with a negative initial wait (reachable: the config
file is arbitrary JSON merged over the defaults with no validation). -/
def configNegativeWait : RotationConfig :=
  { DEFAULT_CONFIG with rate_limit_initial_wait_seconds := -5 }

/-- C6 counterexample: with a negative configured initial wait the wait
time strictly decreases from failureCount 0 to 1, refuting
"non-decreasing in failureCount for every configuration". -/
theorem waitTime_monotone_cex :
    calculateWaitTime 1 configNegativeWait < calculateWaitTime 0 configNegativeWait := by
  norm_num [calculateWaitTime, configNegativeWait, DEFAULT_CONFIG, min_def]

/-- C7 (amended): cleanupExpiredFailures never deletes a record, zeroes
failureCount and clears rateLimitUntil exactly when failureCount > 0,
lastRateLimitAt is present and nonzero, and now − lastRateLimitAt exceeds
the TTL (in ms), and leaves the record completely unchanged otherwise (in
particular at or below the TTL boundary). -/
theorem cleanup_claim (quotaState : QuotaMap) (config : RotationConfig) (now : ℚ)
    (accountId : String) :
    ((cleanupExpiredFailures quotaState config now accountId).isSome ↔
      (quotaState accountId).isSome) ∧
    (∀ q, quotaState accountId = some q →
      (¬ (0 < q.failureCount ∧ ∃ t, q.lastRateLimitAt = some t ∧ t ≠ 0 ∧
            config.failure_ttl_seconds * 1000 < now - t) →
        cleanupExpiredFailures quotaState config now accountId = some q) ∧
      (∀ t, q.lastRateLimitAt = some t → t ≠ 0 → 0 < q.failureCount →
        config.failure_ttl_seconds * 1000 < now - t →
        cleanupExpiredFailures quotaState config now accountId =
          some { q with failureCount := 0, rateLimitUntil := none })) := by
  refine ⟨by simp [cleanupExpiredFailures], ?_⟩
  intro q hq'
  have hmap : cleanupExpiredFailures quotaState config now accountId =
      some (cleanupQuotaRecord config now q) := by
    unfold cleanupExpiredFailures
    rw [hq']
    rfl
  constructor
  · intro hnot
    rw [hmap]
    congr 1
    unfold cleanupQuotaRecord
    push_neg at hnot
    by_cases hfc : 0 < q.failureCount
    · cases ht : q.lastRateLimitAt with
      | none => simp [hfc, ht]
      | some t =>
        have h2 := hnot hfc t ht
        by_cases h0 : t = 0
        · simp [hfc, ht, h0]
        · have hle : ¬ (t ≠ 0 ∧ config.failure_ttl_seconds * 1000 < now - t) := by
            intro hc
            exact absurd hc.2 (not_lt.mpr (h2 h0))
          simp [hfc, ht, hle]
    · simp [hfc]
  · intro t ht h0 hfc hlt
    rw [hmap]
    congr 1
    unfold cleanupQuotaRecord
    simp [hfc, ht, h0, hlt]

/-- Quota map matching the specification's cleanup scenario: a rate limit
3601 s before `now = 4000000`, two failures. -/
def quotaExpiredTtl : QuotaMap := fun i =>
  if i = "a" then
    some { lastRateLimitAt := some 399000, rateLimitUntil := some 459000
           requestCount := 3, failureCount := 2, lastSuccessAt := none }
  else none

/-- Witness for C7 at the specification's scenario (TTL 3600 s, last rate
limit 3601 s ago): the record is zeroed. -/
theorem cleanup_claim_witness :
    cleanupExpiredFailures quotaExpiredTtl DEFAULT_CONFIG 4000000 "a" =
      some { lastRateLimitAt := some 399000, rateLimitUntil := none
             requestCount := 3, failureCount := 0, lastSuccessAt := none } :=
  ((cleanup_claim quotaExpiredTtl DEFAULT_CONFIG 4000000 "a").2 _ rfl).2 399000 rfl
    (by norm_num) (by norm_num) (by norm_num [DEFAULT_CONFIG])

/-- Quota record with `lastRateLimitAt = 0` (present but falsy in JS). -/
def quotaZeroTimestamp : QuotaMap := fun i =>
  if i = "a" then
    some { lastRateLimitAt := some 0, rateLimitUntil := some 7
           requestCount := 0, failureCount := 1, lastSuccessAt := none }
  else none

/-- C7 counterexample: a record with failureCount = 1 > 0 and
now − lastRateLimitAt = 10000000 − 0 far above the TTL is nevertheless
left untouched, because `lastRateLimitAt = 0` is falsy in JS — refuting
"zeroed exactly when failureCount > 0 and now − lastRateLimitAt > TTL". -/
theorem cleanup_zero_timestamp_cex :
    (0 : ℚ) < 1 ∧
    DEFAULT_CONFIG.failure_ttl_seconds * 1000 < 10000000 - 0 ∧
    cleanupExpiredFailures quotaZeroTimestamp DEFAULT_CONFIG 10000000 "a" =
      some { lastRateLimitAt := some 0, rateLimitUntil := some 7
             requestCount := 0, failureCount := 1, lastSuccessAt := none } := by
  refine ⟨by norm_num, by norm_num [DEFAULT_CONFIG], ?_⟩
  norm_num [cleanupExpiredFailures, cleanupQuotaRecord, quotaZeroTimestamp]

/-- C10: recordRateLimit touches only lastRateLimitAt, rateLimitUntil and
failureCount of the target account's record; recordSuccess touches only
lastSuccessAt and requestCount; neither touches any other account's
record; both start from a base record with requestCount = 0 and
failureCount = 0 when none exists. -/
theorem recordOps_frame_claim (quotaState : QuotaMap) (accountId : String) (now : ℚ)
    (config : RotationConfig) :
    (∀ otherId, otherId ≠ accountId →
      recordRateLimit quotaState accountId now config otherId = quotaState otherId ∧
      recordSuccess quotaState accountId now otherId = quotaState otherId) ∧
    (recordRateLimit quotaState accountId now config accountId =
      some { (quotaState accountId).getD emptyQuotaRecord with
              lastRateLimitAt := some now
              rateLimitUntil := some (now + config.max_rate_limit_wait_seconds * 1000)
              failureCount := ((quotaState accountId).getD emptyQuotaRecord).failureCount + 1 }) ∧
    (recordSuccess quotaState accountId now accountId =
      some { (quotaState accountId).getD emptyQuotaRecord with
              lastSuccessAt := some now
              requestCount := ((quotaState accountId).getD emptyQuotaRecord).requestCount + 1 }) := by
  refine ⟨fun otherId hne => ⟨?_, ?_⟩, ?_, ?_⟩
  · simp [recordRateLimit, hne]
  · simp [recordSuccess, hne]
  · simp [recordRateLimit]
  · simp [recordSuccess]

/-- Witness for C10: the frame condition applied at a concrete input. -/
theorem recordOps_frame_claim_witness :
    recordRateLimit emptyQuota "a" 5 DEFAULT_CONFIG "b" = emptyQuota "b" :=
  ((recordOps_frame_claim emptyQuota "a" 5 DEFAULT_CONFIG).1 "b" (by decide)).1

/-- C9: hybrid strategy, three enabled credentials with empty quota state,
forceRotate: every score is 100, the current position is adjusted down by
20, and the first strict maximum wins, so index 1 (B) is selected. -/
theorem hybrid_tiebreak_claim :
    calculateHealthScore accA emptyQuota DEFAULT_CONFIG 0 = 100 ∧
    calculateHealthScore accB emptyQuota DEFAULT_CONFIG 0 = 100 ∧
    calculateHealthScore accC emptyQuota DEFAULT_CONFIG 0 = 100 ∧
    selectNextAccount [accA, accB, accC] 0 emptyQuota DEFAULT_CONFIG true 0 = 1 := by
  refine ⟨?_, ?_, ?_, ?_⟩ <;>
    norm_num [selectNextAccount, getEnabledAccounts, hybridStep, calculateHealthScore,
      hasReachedSoftQuota, activeWindow, emptyQuota, accA, accB, accC, DEFAULT_CONFIG,
      List.range_succ, List.filter, min_def, max_def]

/-- Index `i` names an enabled account that has not reached the soft
quota — a surviving candidate of the hybrid filter. -/
def idxSurvives (accounts : List AccountCredentials) (quotaState : QuotaMap)
    (config : RotationConfig) (now : ℚ) (i : ℕ) : Bool :=
  match accounts[i]? with
  | some a => a.enabled && !(hasReachedSoftQuota a quotaState config now)
  | none => false

/-- An enabled member of the roster yields an enabled index. -/
theorem exists_idxEnabled_of_mem (accounts : List AccountCredentials)
    (h : ∃ a ∈ accounts, a.enabled = true) :
    ∃ k, k < accounts.length ∧ idxEnabled accounts k = true := by
  obtain ⟨a, ha, hae⟩ := h
  obtain ⟨i, hi, rfl⟩ := List.mem_iff_getElem.mp ha
  exact ⟨i, hi, by simp [idxEnabled, List.getElem?_eq_getElem hi, hae]⟩

/-- Auxiliary modular arithmetic: starting the circular scan anywhere
reaches any index `k < len` at offset `(k + len - (cur+1) % len) % len`. -/
theorem scanIndexHits (len cur k : ℕ) (hlen : 0 < len) (hk : k < len) :
    (cur + (k + len - (cur + 1) % len) % len + 1) % len = k := by
  have hclt : (cur + 1) % len < len := Nat.mod_lt _ hlen
  set c := (cur + 1) % len with hc
  set j := (k + len - c) % len with hj
  have e1 : cur + j + 1 = cur + 1 + j := by omega
  have h2 : (cur + 1) % len ≡ cur + 1 [MOD len] := Nat.mod_modEq _ _
  have h1 : (k + len - c) % len ≡ k + len - c [MOD len] := Nat.mod_modEq _ _
  have hsum : cur + 1 + j ≡ k + len [MOD len] := by
    calc cur + 1 + j
        ≡ c + (k + len - c) [MOD len] := Nat.ModEq.add (hc ▸ h2.symm) h1
      _ = k + len := by omega
  rw [e1]
  show (cur + 1 + j) % len = k
  rw [show (cur + 1 + j) % len = (k + len) % len from hsum]
  rw [Nat.add_mod_right, Nat.mod_eq_of_lt hk]

/-- The forward circular scan lands on an enabled index whenever one
exists. -/
theorem forwardScan_enabled (accounts : List AccountCredentials) (cur : ℕ)
    (h : ∃ k, k < accounts.length ∧ idxEnabled accounts k = true) :
    idxEnabled accounts (forwardScan accounts cur) = true := by
  obtain ⟨k, hk, hke⟩ := h
  have hlen : 0 < accounts.length := Nat.lt_of_le_of_lt (Nat.zero_le _) hk
  unfold forwardScan
  cases hfs : (List.range accounts.length).findSome? (fun j =>
      let nextIdx := (cur + j + 1) % accounts.length
      if idxEnabled accounts nextIdx then some nextIdx else none) with
  | some idx =>
    obtain ⟨j, hjmem, hj⟩ := List.exists_of_findSome?_eq_some hfs
    dsimp only at hj
    split at hj
    · cases Option.some.inj hj
      assumption
    · exact Option.noConfusion hj
  | none =>
    exfalso
    have hall := List.findSome?_eq_none_iff.mp hfs
      ((k + accounts.length - (cur + 1) % accounts.length) % accounts.length)
      (List.mem_range.mpr (Nat.mod_lt _ hlen))
    dsimp only at hall
    rw [scanIndexHits accounts.length cur k hlen hk, hke] at hall
    simp at hall

/-- With pairwise-distinct ids, `findIndex` by the id of an enabled member
returns an enabled index (the single-enabled-account branch of
`selectNextAccount`). -/
theorem findIdx_by_id_enabled (accounts : List AccountCredentials)
    (hnd : (accounts.map (fun a => a.id)).Nodup) (e : AccountCredentials)
    (he : e ∈ accounts) (hen : e.enabled = true) :
    idxEnabled accounts (accounts.findIdx (fun a => a.id == e.id)) = true := by
  have hex : ∃ x ∈ accounts, (fun a => a.id == e.id) x = true := ⟨e, he, by simp⟩
  have hlt : accounts.findIdx (fun a => a.id == e.id) < accounts.length :=
    List.findIdx_lt_length_of_exists hex
  have hfound := List.findIdx_getElem (w := hlt)
  simp only [beq_iff_eq] at hfound
  obtain ⟨i, hi, hei⟩ := List.mem_iff_getElem.mp he
  have hlt2 : accounts.findIdx (fun a => a.id == e.id) < (accounts.map (fun a => a.id)).length := by
    simpa using hlt
  have hi2 : i < (accounts.map (fun a => a.id)).length := by simpa using hi
  have hidx : accounts.findIdx (fun a => a.id == e.id) = i := by
    have hmap : (accounts.map (fun a => a.id)).get ⟨accounts.findIdx (fun a => a.id == e.id), hlt2⟩ =
        (accounts.map (fun a => a.id)).get ⟨i, hi2⟩ := by
      simp only [List.get_eq_getElem, List.getElem_map]
      rw [hfound, hei]
    simpa using (List.Nodup.get_inj_iff hnd).mp hmap
  rw [hidx]
  simp [idxEnabled, List.getElem?_eq_getElem hi, hei, hen]

/-- A surviving index is enabled. -/
theorem idxSurvives_enabled (accounts : List AccountCredentials) (quotaState : QuotaMap)
    (config : RotationConfig) (now : ℚ) (i : ℕ)
    (h : idxSurvives accounts quotaState config now i = true) :
    idxEnabled accounts i = true := by
  unfold idxSurvives at h
  unfold idxEnabled
  cases hx : accounts[i]? with
  | none => rw [hx] at h; exact h
  | some a => rw [hx] at h; exact (Bool.and_eq_true_iff.mp h).1

/-- One hybrid step sends a best pair that is enabled-or-initial to a best
pair that is enabled-or-initial. -/
theorem hybridStep_P (accounts : List AccountCredentials) (cur : ℕ) (quotaState : QuotaMap)
    (config : RotationConfig) (force : Bool) (now : ℚ) (b : ℕ × ℚ) (i : ℕ)
    (hb : idxEnabled accounts b.1 = true ∨ b = (cur, -1)) :
    idxEnabled accounts (hybridStep accounts cur quotaState config force now b i).1 = true ∨
      hybridStep accounts cur quotaState config force now b i = (cur, -1) := by
  unfold hybridStep
  cases hx : accounts[i]? with
  | none => exact hb
  | some acc =>
    dsimp only
    by_cases hen : acc.enabled = true
    · rw [if_pos hen]
      by_cases hsq : hasReachedSoftQuota acc quotaState config now = true
      · rw [if_pos hsq]
        exact hb
      · rw [if_neg hsq]
        split <;> split <;>
          first
            | exact hb
            | (left
               simp [idxEnabled, hx, hen])
    · rw [if_neg hen]
      exact hb

/-- One hybrid step preserves enabledness of the best index. -/
theorem hybridStep_keep (accounts : List AccountCredentials) (cur : ℕ) (quotaState : QuotaMap)
    (config : RotationConfig) (force : Bool) (now : ℚ) (b : ℕ × ℚ) (i : ℕ)
    (hb : idxEnabled accounts b.1 = true) :
    idxEnabled accounts (hybridStep accounts cur quotaState config force now b i).1 = true := by
  unfold hybridStep
  cases hx : accounts[i]? with
  | none => exact hb
  | some acc =>
    dsimp only
    by_cases hen : acc.enabled = true
    · rw [if_pos hen]
      by_cases hsq : hasReachedSoftQuota acc quotaState config now = true
      · rw [if_pos hsq]
        exact hb
      · rw [if_neg hsq]
        split <;> split <;>
          first
            | exact hb
            | simp [idxEnabled, hx, hen]
    · rw [if_neg hen]
      exact hb

/-- The hybrid fold keeps an enabled best index enabled. -/
theorem hybridFold_keep (accounts : List AccountCredentials) (cur : ℕ) (quotaState : QuotaMap)
    (config : RotationConfig) (force : Bool) (now : ℚ) (l : List ℕ) (b : ℕ × ℚ)
    (hb : idxEnabled accounts b.1 = true) :
    idxEnabled accounts
      ((l.foldl (hybridStep accounts cur quotaState config force now) b)).1 = true := by
  induction l generalizing b with
  | nil => exact hb
  | cons x xs ih =>
    exact ih _ (hybridStep_keep accounts cur quotaState config force now b x hb)

/-- The hybrid fold result is enabled or still the initial pair. -/
theorem hybridFold_P (accounts : List AccountCredentials) (cur : ℕ) (quotaState : QuotaMap)
    (config : RotationConfig) (force : Bool) (now : ℚ) (l : List ℕ) (b : ℕ × ℚ)
    (hb : idxEnabled accounts b.1 = true ∨ b = (cur, -1)) :
    idxEnabled accounts
      ((l.foldl (hybridStep accounts cur quotaState config force now) b)).1 = true ∨
      l.foldl (hybridStep accounts cur quotaState config force now) b = (cur, -1) := by
  induction l generalizing b with
  | nil => exact hb
  | cons x xs ih =>
    exact ih _ (hybridStep_P accounts cur quotaState config force now b x hb)

/-- If some surviving candidate is not the forced current position, the
hybrid fold ends on an enabled index. -/
theorem hybridFold_surv (accounts : List AccountCredentials) (cur : ℕ) (quotaState : QuotaMap)
    (config : RotationConfig) (force : Bool) (now : ℚ) (l : List ℕ) (b : ℕ × ℚ)
    (hb : idxEnabled accounts b.1 = true ∨ b = (cur, -1))
    (hs : ∃ i ∈ l, idxSurvives accounts quotaState config now i = true ∧
      ¬ (i = cur ∧ force = true)) :
    idxEnabled accounts
      ((l.foldl (hybridStep accounts cur quotaState config force now) b)).1 = true := by
  revert hs
  induction l generalizing b with
  | nil =>
    intro hs
    exact absurd hs (by simp)
  | cons x xs ih =>
    intro hs
    rcases hs with ⟨i, hmem, hisurv, hnc⟩
    rcases List.mem_cons.mp hmem with rfl | hmem2
    · show idxEnabled accounts
        ((xs.foldl (hybridStep accounts cur quotaState config force now)
          (hybridStep accounts cur quotaState config force now b i))).1 = true
      have hsv := hisurv
      unfold idxSurvives at hsv
      cases hx : accounts[i]? with
      | none => rw [hx] at hsv; exact Bool.noConfusion hsv
      | some acc =>
        rw [hx] at hsv
        obtain ⟨hen, hnq⟩ := Bool.and_eq_true_iff.mp hsv
        have hnq' : hasReachedSoftQuota acc quotaState config now = false := by
          rwa [Bool.not_eq_true'] at hnq
        have hstep : hybridStep accounts cur quotaState config force now b i =
            (if b.2 < calculateHealthScore acc quotaState config now
              then (i, calculateHealthScore acc quotaState config now) else b) := by
          unfold hybridStep
          rw [hx]
          dsimp only
          rw [if_pos hen,
            if_neg (show ¬ hasReachedSoftQuota acc quotaState config now = true by simp [hnq']),
            if_neg hnc]
        rw [hstep]
        split
        · exact hybridFold_keep accounts cur quotaState config force now xs _
            (by simp [idxEnabled, hx, hen])
        · rename_i hnotlt
          rcases hb with hbe | hbeq
          · exact hybridFold_keep accounts cur quotaState config force now xs _ hbe
          · exfalso
            have hscore : 0 ≤ calculateHealthScore acc quotaState config now := by
              have := (healthScore_claim acc quotaState config now).1.1
              exact this
            rw [hbeq] at hnotlt
            simp only [not_lt] at hnotlt
            have : (0:ℚ) ≤ -1 := le_trans hscore hnotlt
            norm_num at this
    · exact ih (hybridStep accounts cur quotaState config force now b x)
        (hybridStep_P accounts cur quotaState config force now b x hb)
        ⟨i, hmem2, hisurv, hnc⟩

/-- C2 (amended): with pairwise-distinct credential ids and at least one
enabled credential, selectNextAccount returns an enabled index, provided
that under the hybrid strategy at least one enabled credential survives
the soft-quota filter; when every enabled credential is at the soft
quota, hybrid falls back to currentIndex, which may be disabled (see the
counterexample). -/
theorem selectNext_enabled_claim (accounts : List AccountCredentials) (cur : ℕ)
    (quotaState : QuotaMap) (config : RotationConfig) (force : Bool) (now : ℚ)
    (hnd : (accounts.map (fun a => a.id)).Nodup)
    (hen : ∃ a ∈ accounts, a.enabled = true)
    (hsurv : config.account_selection_strategy = .hybrid →
      ∃ i, i < accounts.length ∧ idxSurvives accounts quotaState config now i = true) :
    idxEnabled accounts (selectNextAccount accounts cur quotaState config force now) = true := by
  unfold selectNextAccount
  have hkidx := exists_idxEnabled_of_mem accounts hen
  cases hfe : getEnabledAccounts accounts with
  | nil =>
    exfalso
    obtain ⟨a, ha, hae⟩ := hen
    have hmem : a ∈ getEnabledAccounts accounts := List.mem_filter.mpr ⟨ha, hae⟩
    rw [hfe] at hmem
    exact List.not_mem_nil a hmem
  | cons e rest =>
    cases rest with
    | nil =>
      have hmem : e ∈ getEnabledAccounts accounts := by
        rw [hfe]
        exact List.mem_cons_self e []
      have h2 := List.mem_filter.mp hmem
      exact findIdx_by_id_enabled accounts hnd e h2.1 h2.2
    | cons e2 rest2 =>
      cases hst : config.account_selection_strategy with
      | sticky =>
        by_cases hcond : force = false ∧ idxEnabled accounts cur = true
        · rw [if_pos hcond]
          exact hcond.2
        · rw [if_neg hcond]
          exact forwardScan_enabled accounts cur hkidx
      | roundRobin => exact forwardScan_enabled accounts cur hkidx
      | hybrid =>
        obtain ⟨i, hi, hisurv⟩ := hsurv hst
        by_cases hic : i = cur ∧ force = true
        · have hce : idxEnabled accounts cur = true := by
            rcases hic with ⟨rfl, -⟩
            exact idxSurvives_enabled accounts quotaState config now i hisurv
          rcases hybridFold_P accounts cur quotaState config force now
              (List.range accounts.length) (cur, -1) (Or.inr rfl) with hf | hf
          · exact hf
          · rw [hf]
            exact hce
        · exact hybridFold_surv accounts cur quotaState config force now
            (List.range accounts.length) (cur, -1) (Or.inr rfl)
            ⟨i, List.mem_range.mpr hi, hisurv, hic⟩

/-- Witness for C2: two enabled accounts with distinct ids, empty quota,
hybrid default configuration. -/
theorem selectNext_enabled_claim_witness :
    idxEnabled [accA, accB] (selectNextAccount [accA, accB] 0 emptyQuota DEFAULT_CONFIG true 0) =
      true :=
  selectNext_enabled_claim [accA, accB] 0 emptyQuota DEFAULT_CONFIG true 0
    (by simp [accA, accB])
    (⟨accA, by simp, rfl⟩)
    (fun _ => ⟨0, by norm_num,
      by norm_num [idxSurvives, accA, hasReachedSoftQuota, emptyQuota]⟩)

/-- Quota map in which accounts "b" and "c" are inside an active
rate-limit window at `now = 1000`. -/
def quotaBCLimited : QuotaMap := fun i =>
  if i = "b" ∨ i = "c" then
    some { lastRateLimitAt := some 500, rateLimitUntil := some 2000
           requestCount := 0, failureCount := 1, lastSuccessAt := none }
  else none

/-- C2 counterexample: current index 0 is disabled, "b" and "c" are
enabled but both rate limited (soft quota reached), so the hybrid loop
filters every candidate and falls back to the disabled currentIndex 0 —
refuting "selectNextAccount never returns the index of a disabled
credential while at least one enabled credential exists". -/
theorem selectNext_disabled_cex :
    selectNextAccount [accADisabled, accB, accC] 0 quotaBCLimited DEFAULT_CONFIG true 1000 = 0 ∧
    idxEnabled [accADisabled, accB, accC] 0 = false ∧
    accB ∈ [accADisabled, accB, accC] ∧ accB.enabled = true := by
  refine ⟨?_, by simp [idxEnabled, accADisabled, accA], by simp, rfl⟩
  norm_num [selectNextAccount, getEnabledAccounts, hybridStep, calculateHealthScore,
    hasReachedSoftQuota, activeWindow, quotaBCLimited, accA, accB, accC, accADisabled,
    DEFAULT_CONFIG, List.range_succ, List.filter, min_def, max_def]

/-- The mutable engine state embedded in a session snapshot:
`{ currentIndex, rotationCount, quotaState }` (the roster is never
reconstructed from the log; it is reloaded from the credentials file). -/
structure StateSnapshot where
  currentIndex : ℕ
  rotationCount : ℕ
  quotaState : QuotaMap

/-- One entry of the active branch history, as the `reconstructState`
loop distinguishes them: a `rotate_account` tool result carrying
`details.state`, a custom `rotation-setup` message carrying
`details.state`, or anything else (skipped). -/
inductive SessionEntry where
| toolRotate (snap : StateSnapshot)
| setupMsg (snap : StateSnapshot)
| other

/-- JS object spread `{ ...a, ...b }` on `Record<string, T>`: keys of `b`
win. -/
def mergeQuotaState (a b : QuotaMap) : QuotaMap := fun i =>
  match b i with
  | some v => some v
  | none => a i

/-- One iteration of the source loop in `reconstructState`: a
`rotate_account` tool result overwrites `currentIndex`/`rotationCount`
and shallow-merges `quotaState`; a `rotation-setup` message overwrites
only `currentIndex`/`rotationCount`; other entries are skipped. -/
def replayEntry (st : StateSnapshot) (e : SessionEntry) : StateSnapshot :=
  match e with
  | .toolRotate s =>
    { currentIndex := s.currentIndex
      rotationCount := s.rotationCount
      quotaState := mergeQuotaState st.quotaState s.quotaState }
  | .setupMsg s => { st with currentIndex := s.currentIndex, rotationCount := s.rotationCount }
  | .other => st

/-- Source `reconstructState`: replay the branch history oldest→newest
over the in-memory state (whose roster part is loaded from file and not
modelled here). -/
def reconstructState (st : StateSnapshot) (entries : List SessionEntry) : StateSnapshot :=
  entries.foldl replayEntry st

/-- The snapshot carried by an entry, if any. -/
def entrySnapshot? : SessionEntry → Option StateSnapshot
  | .toolRotate s => some s
  | .setupMsg s => some s
  | .other => none

/-- The most recent snapshot of the history (of either kind). -/
def lastSnapshot? (entries : List SessionEntry) : Option StateSnapshot :=
  entries.reverse.findSome? entrySnapshot?

/-- The value for id `i` in the most recent `rotate_account` tool-result
snapshot whose quotaState contains `i`. -/
def lastToolQuota? (entries : List SessionEntry) (i : String) : Option AccountQuotaState :=
  entries.reverse.findSome? (fun e =>
    match e with
    | .toolRotate s => s.quotaState i
    | _ => none)

/-- The quota lookup as the claim words it: the value for id `i` from the
most recent snapshot of either kind whose quotaState contains `i`
(claim-side definition, used by the counterexample). -/
def lastSnapshotQuotaClaim? (entries : List SessionEntry) (i : String) : Option AccountQuotaState :=
  entries.reverse.findSome? (fun e =>
    match entrySnapshot? e with
    | some s => s.quotaState i
    | none => none)

/-- C8 (amended): replaying a branch history yields currentIndex and
rotationCount equal to those of the last snapshot of the sequence (of
either kind), and, for every credential id, the quota value of the most
recent rotate_account tool-result snapshot containing that id (ids
absent from later tool snapshots keep the previously merged value);
rotation-setup snapshots never contribute quota state. -/
theorem reconstruct_claim (st : StateSnapshot) (entries : List SessionEntry) :
    (∀ s, lastSnapshot? entries = some s →
      (reconstructState st entries).currentIndex = s.currentIndex ∧
      (reconstructState st entries).rotationCount = s.rotationCount) ∧
    (∀ i, (reconstructState st entries).quotaState i =
      match lastToolQuota? entries i with
      | some v => some v
      | none => st.quotaState i) := by
  induction entries using List.reverseRecOn with
  | nil =>
    refine ⟨fun s hs => ?_, fun i => rfl⟩
    exact Option.noConfusion hs
  | append_singleton l e ih =>
    have hfold : reconstructState st (l ++ [e]) = replayEntry (reconstructState st l) e := by
      unfold reconstructState
      rw [List.foldl_append]
      rfl
    constructor
    · intro s hs
      rw [hfold]
      cases e with
      | toolRotate s0 =>
        have : s0 = s := by
          have h1 : lastSnapshot? (l ++ [SessionEntry.toolRotate s0]) = some s0 := by
            simp [lastSnapshot?, entrySnapshot?, List.findSome?]
          rw [h1] at hs
          exact Option.some.inj hs
        subst this
        exact ⟨rfl, rfl⟩
      | setupMsg s0 =>
        have : s0 = s := by
          have h1 : lastSnapshot? (l ++ [SessionEntry.setupMsg s0]) = some s0 := by
            simp [lastSnapshot?, entrySnapshot?, List.findSome?]
          rw [h1] at hs
          exact Option.some.inj hs
        subst this
        exact ⟨rfl, rfl⟩
      | other =>
        have h1 : lastSnapshot? (l ++ [SessionEntry.other]) = lastSnapshot? l := by
          simp [lastSnapshot?, entrySnapshot?, List.findSome?]
        rw [h1] at hs
        exact ih.1 s hs
    · intro i
      rw [hfold]
      cases e with
      | toolRotate s0 =>
        show mergeQuotaState (reconstructState st l).quotaState s0.quotaState i = _
        unfold mergeQuotaState
        cases hs0 : s0.quotaState i with
        | some v =>
          have h1 : lastToolQuota? (l ++ [SessionEntry.toolRotate s0]) i = some v := by
            simp [lastToolQuota?, List.findSome?, hs0]
          rw [h1]
        | none =>
          have h1 : lastToolQuota? (l ++ [SessionEntry.toolRotate s0]) i = lastToolQuota? l i := by
            simp [lastToolQuota?, List.findSome?, hs0]
          rw [h1]
          exact ih.2 i
      | setupMsg s0 =>
        have h1 : lastToolQuota? (l ++ [SessionEntry.setupMsg s0]) i = lastToolQuota? l i := by
          simp only [lastToolQuota?, List.reverse_append, List.reverse_singleton,
            List.singleton_append, List.findSome?]
        rw [h1]
        exact ih.2 i
      | other =>
        have h1 : lastToolQuota? (l ++ [SessionEntry.other]) i = lastToolQuota? l i := by
          simp only [lastToolQuota?, List.reverse_append, List.reverse_singleton,
            List.singleton_append, List.findSome?]
        rw [h1]
        exact ih.2 i

/-- Quota record with requestCount 1 (first snapshot value). -/
def snapQ1 : AccountQuotaState :=
  { lastRateLimitAt := none, rateLimitUntil := none, requestCount := 1
    failureCount := 0, lastSuccessAt := none }

/-- Quota record with requestCount 2 (second snapshot value). -/
def snapQ2 : AccountQuotaState :=
  { lastRateLimitAt := none, rateLimitUntil := none, requestCount := 2
    failureCount := 0, lastSuccessAt := none }

/-- Quota map containing only id "a". -/
def quotaOnlyA (q : AccountQuotaState) : QuotaMap := fun i =>
  if i = "a" then some q else none

/-- Initial replay state. -/
def replayStart : StateSnapshot := { currentIndex := 0, rotationCount := 0, quotaState := emptyQuota }

/-- History: a rotate_account tool snapshot carrying `a ↦ Q1`, then a
rotation-setup snapshot carrying `a ↦ Q2`. -/
def cexHistory : List SessionEntry :=
  [SessionEntry.toolRotate { currentIndex := 7, rotationCount := 7, quotaState := quotaOnlyA snapQ1 },
   SessionEntry.setupMsg { currentIndex := 8, rotationCount := 8, quotaState := quotaOnlyA snapQ2 }]

/-- Witness for C8 at a one-snapshot history. -/
theorem reconstruct_claim_witness :
    (reconstructState replayStart
        [SessionEntry.toolRotate { currentIndex := 3, rotationCount := 4, quotaState := quotaOnlyA snapQ1 }]).currentIndex =
      3 ∧
    (reconstructState replayStart
        [SessionEntry.toolRotate { currentIndex := 3, rotationCount := 4, quotaState := quotaOnlyA snapQ1 }]).rotationCount =
      4 :=
  (reconstruct_claim replayStart
      [SessionEntry.toolRotate { currentIndex := 3, rotationCount := 4, quotaState := quotaOnlyA snapQ1 }]).1
    { currentIndex := 3, rotationCount := 4, quotaState := quotaOnlyA snapQ1 } rfl

/-- C8 counterexample: the most recent snapshot containing id "a" is the
rotation-setup snapshot with value Q2, but replay yields Q1, because the
source merges quota only from rotate_account tool results — refuting
"quotaState[id] equals the value from the most recent snapshot whose
quotaState contains that id". -/
theorem reconstruct_setup_quota_cex :
    lastSnapshotQuotaClaim? cexHistory "a" = some snapQ2 ∧
    (reconstructState replayStart cexHistory).quotaState "a" = some snapQ1 ∧
    snapQ1 ≠ snapQ2 := by
  refine ⟨rfl, rfl, ?_⟩
  intro h
  have : (1 : ℚ) = 2 := congrArg AccountQuotaState.requestCount h
  norm_num at this

/-- Structured outcome of one `rotateAccount` call.  The source returns a
bare boolean (`success ↦ true`, everything else ↦ false) and signals the
distinct failure cases only through notifications; the constructors
follow the source's exit paths one-to-one (`indexError` models the
TypeError thrown when `accounts[currentIndex]` is undefined). -/
inductive RotateOutcome where
| success
| maxDepthExceeded
| noEnabledAccounts
| singleAccountCannotRotate
| providerUpdateFailure
| indexError
deriving DecidableEq, Repr

/-- Result of `refreshOAuthToken`: new access token and expiry (the
refresh token is kept). -/
structure OAuthTokens where
  refresh : String
  access : String
  expires : ℚ
deriving DecidableEq, Repr

/-- JS `{ ...newCredentials, ...credentials }`: the refreshed token
fields override the stored account entry. -/
def applyRefreshedTokens (acc : AccountCredentials) (t : OAuthTokens) : AccountCredentials :=
  { acc with refresh := t.refresh, access := t.access, expires := t.expires }

/-- Tail of `rotateAccount` after the optional refresh: the
`pi.registerProvider` try/catch.  `providerOk` is whether registration
succeeds; on success a success is recorded for the new account, on
failure `currentIndex` is reverted to `previousIndex` (rotationCount and
quota are not reverted). -/
def finishRotate (providerOk : Bool) (now : ℚ) (st : AccountRotationState)
    (previousIndex : ℕ) (newCredentials : AccountCredentials) (depth : ℕ) :
    RotateOutcome × AccountRotationState × ℕ :=
  if providerOk then
    (.success, { st with quotaState := recordSuccess st.quotaState newCredentials.id now }, depth)
  else
    (.providerUpdateFailure, { st with currentIndex := previousIndex }, depth)

/-- Source `rotateAccount(ctx, forceRotate, depth)`.  The impure
collaborators are oracles indexed by recursion depth: `refreshOracle`
gives the outcome of `refreshOAuthToken` at that depth (`none` = the
refresh threw) and `providerOk` whether provider registration succeeds.
`saveCredentials` and all notifications are I/O with no effect on the
modelled state.  The third component of the result is the deepest depth
entered (instrumentation used to state the recursion bound; the source
carries no such value). -/
def rotateAccount (refreshOracle : ℕ → Option OAuthTokens) (providerOk : ℕ → Bool)
    (config : RotationConfig) (now : ℚ) (st : AccountRotationState) (forceRotate : Bool)
    (depth : ℕ) : RotateOutcome × AccountRotationState × ℕ :=
  if hd : MAX_ROTATION_DEPTH ≤ depth then (.maxDepthExceeded, st, depth)
  else
    let st1 : AccountRotationState :=
      { st with quotaState := cleanupExpiredFailures st.quotaState config now }
    let enabledAccounts := getEnabledAccounts st1.accounts
    if enabledAccounts.length = 0 then (.noEnabledAccounts, st1, depth)
    else if enabledAccounts.length = 1 ∧ forceRotate = true ∧
        idxEnabled st1.accounts st1.currentIndex = true then
      (.singleAccountCannotRotate, st1, depth)
    else
      let st2 :=
        match st1.accounts[st1.currentIndex]? with
        | some currentAcc =>
          if forceRotate then
            { st1 with quotaState := recordRateLimit st1.quotaState currentAcc.id now config }
          else st1
        | none => st1
      let previousIndex := st2.currentIndex
      let selected :=
        selectNextAccount st2.accounts previousIndex st2.quotaState config forceRotate now
      let newIndex :=
        if selected = previousIndex ∧ forceRotate = true ∧ 1 < enabledAccounts.length then
          forwardScan st2.accounts previousIndex
        else selected
      let st3 := { st2 with currentIndex := newIndex, rotationCount := st2.rotationCount + 1 }
      match st3.accounts[newIndex]? with
      | none => (.indexError, st3, depth)
      | some newCredentials =>
        if newCredentials.expires ≠ 0 ∧ newCredentials.expires < now + 60000 then
          match refreshOracle depth with
          | some fresh =>
            let st4 := { st3 with
              accounts := st3.accounts.set newIndex (applyRefreshedTokens newCredentials fresh) }
            finishRotate (providerOk depth) now st4 previousIndex newCredentials depth
          | none =>
            let st4 :=
              { st3 with quotaState := recordRateLimit st3.quotaState newCredentials.id now config }
            rotateAccount refreshOracle providerOk config now st4 true (depth + 1)
        else
          finishRotate (providerOk depth) now st3 previousIndex newCredentials depth
termination_by MAX_ROTATION_DEPTH - depth
decreasing_by
  simp_wf
  omega

/-- A call entered at or above the depth bound is an immediate terminal
failure with no selection or mutation. -/
theorem rotateAccount_depth_guard (refreshOracle : ℕ → Option OAuthTokens)
    (providerOk : ℕ → Bool) (config : RotationConfig) (now : ℚ) (st : AccountRotationState)
    (forceRotate : Bool) (depth : ℕ) (h : MAX_ROTATION_DEPTH ≤ depth) :
    rotateAccount refreshOracle providerOk config now st forceRotate depth =
      (.maxDepthExceeded, st, depth) := by
  rw [rotateAccount]
  rw [dif_pos h]

/-- The deepest depth entered by `rotateAccount` never exceeds
`max depth MAX_ROTATION_DEPTH`. -/
theorem rotateAccount_deepest_le (refreshOracle : ℕ → Option OAuthTokens)
    (providerOk : ℕ → Bool) (config : RotationConfig) (now : ℚ) (st : AccountRotationState)
    (forceRotate : Bool) (depth : ℕ) :
    (rotateAccount refreshOracle providerOk config now st forceRotate depth).2.2 ≤
      max depth MAX_ROTATION_DEPTH := by
  suffices H : ∀ gas st forceRotate depth, MAX_ROTATION_DEPTH - depth ≤ gas →
      (rotateAccount refreshOracle providerOk config now st forceRotate depth).2.2 ≤
        max depth MAX_ROTATION_DEPTH by
    exact H (MAX_ROTATION_DEPTH - depth) st forceRotate depth le_rfl
  intro gas
  induction gas with
  | zero =>
    intro st forceRotate depth hg
    have h : MAX_ROTATION_DEPTH ≤ depth := by omega
    rw [rotateAccount_depth_guard refreshOracle providerOk config now st forceRotate depth h]
    exact le_max_left _ _
  | succ g ih =>
    intro st forceRotate depth hg
    by_cases h : MAX_ROTATION_DEPTH ≤ depth
    · rw [rotateAccount_depth_guard refreshOracle providerOk config now st forceRotate depth h]
      exact le_max_left _ _
    · rw [rotateAccount]
      rw [dif_neg h]
      dsimp only
      split
      · exact le_max_left _ _
      · split
        · exact le_max_left _ _
        · split
          · exact le_max_left _ _
          · split
            · split
              · unfold finishRotate
                split
                · exact le_max_left _ _
                · exact le_max_left _ _
              · have h1 : MAX_ROTATION_DEPTH - (depth + 1) ≤ g := by omega
                refine le_trans (ih _ true (depth + 1) h1) ?_
                rw [max_eq_right (by omega : depth + 1 ≤ MAX_ROTATION_DEPTH)]
                exact le_max_right _ _
            · unfold finishRotate
              split
              · exact le_max_left _ _
              · exact le_max_left _ _

/-- Refresh oracle that fails at every depth (`refreshOAuthToken` always
throws). -/
def refreshAlwaysFails : ℕ → Option OAuthTokens := fun _ => none

/-- Provider registration always succeeds. -/
def providerAlwaysOk : ℕ → Bool := fun _ => true

/-- Default configuration with the sticky strategy. -/
def stickyConfig : RotationConfig :=
  { DEFAULT_CONFIG with account_selection_strategy := .sticky }

/-- Account "a" with an expired token. -/
def accAExpired : AccountCredentials := { accA with expires := 1 }

/-- Account "b" with an expired token. -/
def accBExpired : AccountCredentials := { accB with expires := 1 }

/-- Two enabled accounts, both with expired tokens: every rotation
attempt must refresh, and with `refreshAlwaysFails` every attempt
recurses. -/
def twoExpiredState : AccountRotationState :=
  { accounts := [accAExpired, accBExpired], currentIndex := 0, rotationCount := 0
    quotaState := emptyQuota }

/-- C1: a call entered at depth ≥ MAX_ROTATION_DEPTH (5) performs no
selection or mutation and returns the terminal MaxRotationDepthExceeded
failure; for every starting depth and every sequence of refresh
outcomes the deepest depth entered never exceeds max(depth, 5); and
concretely, with the refresh failing at every depth, the call entered at
depth 0 recurses through five consecutive refresh failures and the 6th
call returns MaxRotationDepthExceeded with deepest depth exactly 5. -/
theorem rotate_depth_claim :
    (∀ (refreshOracle : ℕ → Option OAuthTokens) (providerOk : ℕ → Bool)
        (config : RotationConfig) (now : ℚ) (st : AccountRotationState)
        (forceRotate : Bool) (depth : ℕ),
      (MAX_ROTATION_DEPTH ≤ depth →
        rotateAccount refreshOracle providerOk config now st forceRotate depth =
          (.maxDepthExceeded, st, depth)) ∧
      (rotateAccount refreshOracle providerOk config now st forceRotate depth).2.2 ≤
        max depth MAX_ROTATION_DEPTH) ∧
    ((rotateAccount refreshAlwaysFails providerAlwaysOk stickyConfig 1000000 twoExpiredState
        true 0).1 = .maxDepthExceeded ∧
      (rotateAccount refreshAlwaysFails providerAlwaysOk stickyConfig 1000000 twoExpiredState
        true 0).2.2 = MAX_ROTATION_DEPTH) := by
  refine ⟨fun refreshOracle providerOk config now st forceRotate depth =>
    ⟨fun h => rotateAccount_depth_guard refreshOracle providerOk config now st forceRotate depth h,
     rotateAccount_deepest_le refreshOracle providerOk config now st forceRotate depth⟩, ?_⟩
  have hab : (("a" : String) == "b") = false := by decide
  have hba : (("b" : String) == "a") = false := by decide
  have hbb : (("b" : String) == "b") = true := by decide
  have haa : (("a" : String) == "a") = true := by decide
  have pab : ¬(("a" : String) = "b") := by decide
  have pba : ¬(("b" : String) = "a") := by decide
  rw [rotateAccount]
  rw [dif_neg (by norm_num [MAX_ROTATION_DEPTH])]
  norm_num [hab, hba, hbb, haa, pab, pba, finishRotate, selectNextAccount, getEnabledAccounts,
    cleanupExpiredFailures, cleanupQuotaRecord, recordRateLimit, recordSuccess,
    emptyQuotaRecord, forwardScan, idxEnabled, applyRefreshedTokens, refreshAlwaysFails,
    providerAlwaysOk, accAExpired, accBExpired, twoExpiredState, emptyQuota, accA, accB,
    stickyConfig, DEFAULT_CONFIG, List.filter, List.findIdx, List.findIdx.go,
    List.findSome?, List.range_succ, min_def, max_def]
  rw [rotateAccount]
  rw [dif_neg (by norm_num [MAX_ROTATION_DEPTH])]
  norm_num [hab, hba, hbb, haa, pab, pba, finishRotate, selectNextAccount, getEnabledAccounts,
    cleanupExpiredFailures, cleanupQuotaRecord, recordRateLimit, recordSuccess,
    emptyQuotaRecord, forwardScan, idxEnabled, applyRefreshedTokens, refreshAlwaysFails,
    providerAlwaysOk, accAExpired, accBExpired, twoExpiredState, emptyQuota, accA, accB,
    stickyConfig, DEFAULT_CONFIG, List.filter, List.findIdx, List.findIdx.go,
    List.findSome?, List.range_succ, min_def, max_def]
  rw [rotateAccount]
  rw [dif_neg (by norm_num [MAX_ROTATION_DEPTH])]
  norm_num [hab, hba, hbb, haa, pab, pba, finishRotate, selectNextAccount, getEnabledAccounts,
    cleanupExpiredFailures, cleanupQuotaRecord, recordRateLimit, recordSuccess,
    emptyQuotaRecord, forwardScan, idxEnabled, applyRefreshedTokens, refreshAlwaysFails,
    providerAlwaysOk, accAExpired, accBExpired, twoExpiredState, emptyQuota, accA, accB,
    stickyConfig, DEFAULT_CONFIG, List.filter, List.findIdx, List.findIdx.go,
    List.findSome?, List.range_succ, min_def, max_def]
  rw [rotateAccount]
  rw [dif_neg (by norm_num [MAX_ROTATION_DEPTH])]
  norm_num [hab, hba, hbb, haa, pab, pba, finishRotate, selectNextAccount, getEnabledAccounts,
    cleanupExpiredFailures, cleanupQuotaRecord, recordRateLimit, recordSuccess,
    emptyQuotaRecord, forwardScan, idxEnabled, applyRefreshedTokens, refreshAlwaysFails,
    providerAlwaysOk, accAExpired, accBExpired, twoExpiredState, emptyQuota, accA, accB,
    stickyConfig, DEFAULT_CONFIG, List.filter, List.findIdx, List.findIdx.go,
    List.findSome?, List.range_succ, min_def, max_def]
  rw [rotateAccount]
  rw [dif_neg (by norm_num [MAX_ROTATION_DEPTH])]
  norm_num [hab, hba, hbb, haa, pab, pba, finishRotate, selectNextAccount, getEnabledAccounts,
    cleanupExpiredFailures, cleanupQuotaRecord, recordRateLimit, recordSuccess,
    emptyQuotaRecord, forwardScan, idxEnabled, applyRefreshedTokens, refreshAlwaysFails,
    providerAlwaysOk, accAExpired, accBExpired, twoExpiredState, emptyQuota, accA, accB,
    stickyConfig, DEFAULT_CONFIG, List.filter, List.findIdx, List.findIdx.go,
    List.findSome?, List.range_succ, min_def, max_def]
  rw [rotateAccount]
  rw [dif_pos (by norm_num [MAX_ROTATION_DEPTH])]
  norm_num [MAX_ROTATION_DEPTH]

/-- Witness for C1: the depth-guard part applied at depth 5. -/
theorem rotate_depth_claim_witness :
    rotateAccount refreshAlwaysFails providerAlwaysOk stickyConfig 1000000 twoExpiredState
      true MAX_ROTATION_DEPTH =
      (.maxDepthExceeded, twoExpiredState, MAX_ROTATION_DEPTH) :=
  ((rotate_depth_claim.1 refreshAlwaysFails providerAlwaysOk stickyConfig 1000000
    twoExpiredState true MAX_ROTATION_DEPTH).1) le_rfl

/-- C3 (amended): when exactly one credential is enabled and
currentIndex points at an enabled credential (necessarily that one),
rotate with forceRotate is a pure no-op failure: it returns
SingleAccountCannotRotate and the state is unchanged except for the
quota cleanup that runs before the check; in particular currentIndex,
rotationCount and the roster are untouched.  When currentIndex points at
a disabled slot the engine instead proceeds and rotates onto the single
enabled credential (see the counterexample). -/
theorem singleAccount_noop_claim (refreshOracle : ℕ → Option OAuthTokens)
    (providerOk : ℕ → Bool) (config : RotationConfig) (now : ℚ) (st : AccountRotationState)
    (h1 : (getEnabledAccounts st.accounts).length = 1)
    (a : AccountCredentials) (h2 : st.accounts[st.currentIndex]? = some a)
    (h3 : a.enabled = true) :
    rotateAccount refreshOracle providerOk config now st true 0 =
      (.singleAccountCannotRotate,
        { st with quotaState := cleanupExpiredFailures st.quotaState config now }, 0) := by
  have hidx : idxEnabled st.accounts st.currentIndex = true := by
    simp [idxEnabled, h2, h3]
  rw [rotateAccount]
  rw [dif_neg (by norm_num [MAX_ROTATION_DEPTH])]
  dsimp only
  rw [if_neg (by simp [h1]), if_pos ⟨h1, rfl, hidx⟩]

/-- State with a single (enabled) account "b". -/
def singleEnabledState : AccountRotationState :=
  { accounts := [accB], currentIndex := 0, rotationCount := 0, quotaState := emptyQuota }

/-- Witness for C3 at the single-enabled-account state. -/
theorem singleAccount_noop_claim_witness :
    rotateAccount refreshAlwaysFails providerAlwaysOk DEFAULT_CONFIG 1000 singleEnabledState
      true 0 =
      (.singleAccountCannotRotate,
        { singleEnabledState with
            quotaState := cleanupExpiredFailures singleEnabledState.quotaState DEFAULT_CONFIG 1000 },
        0) :=
  singleAccount_noop_claim refreshAlwaysFails providerAlwaysOk DEFAULT_CONFIG 1000
    singleEnabledState rfl accB rfl rfl

/-- State whose current index 0 is a disabled account while "b" (index 1)
is the only enabled one. -/
def disabledCurrentState : AccountRotationState :=
  { accounts := [accADisabled, accB], currentIndex := 0, rotationCount := 0
    quotaState := emptyQuota }

/-- C3 counterexample: exactly one credential is enabled, but
currentIndex points at a disabled slot, so the guard
`currentAccount?.enabled` fails and rotate is NOT a no-op: it succeeds,
moves currentIndex to 1 and increments rotationCount — refuting
"terminal failure as a no-op regardless of which index currentIndex
points to". -/
theorem singleAccount_disabled_current_cex :
    (getEnabledAccounts disabledCurrentState.accounts).length = 1 ∧
    disabledCurrentState.currentIndex = 0 ∧
    disabledCurrentState.rotationCount = 0 ∧
    (rotateAccount refreshAlwaysFails providerAlwaysOk DEFAULT_CONFIG 1000 disabledCurrentState
      true 0).1 = .success ∧
    (rotateAccount refreshAlwaysFails providerAlwaysOk DEFAULT_CONFIG 1000 disabledCurrentState
      true 0).2.1.currentIndex = 1 ∧
    (rotateAccount refreshAlwaysFails providerAlwaysOk DEFAULT_CONFIG 1000 disabledCurrentState
      true 0).2.1.rotationCount = 1 := by
  have hab : (("a" : String) == "b") = false := by decide
  have hbb : (("b" : String) == "b") = true := by decide
  refine ⟨rfl, rfl, rfl, ?_⟩
  rw [rotateAccount]
  rw [dif_neg (by norm_num [MAX_ROTATION_DEPTH])]
  norm_num [hab, hbb, finishRotate, selectNextAccount, getEnabledAccounts,
    cleanupExpiredFailures, cleanupQuotaRecord, recordRateLimit, recordSuccess,
    emptyQuotaRecord, forwardScan, idxEnabled, applyRefreshedTokens, refreshAlwaysFails,
    providerAlwaysOk, disabledCurrentState, emptyQuota, accA, accB, accADisabled,
    DEFAULT_CONFIG, List.filter, List.findIdx, List.findIdx.go, min_def, max_def]

end Rotation
